import Mathlib

/-!
# The SMTP pusher channel of honeytrap (`pushers/smtp/smtp.go`)

A shallow embedding of the channel: configuration (`SmtpConfig`), the
constructor `New`, `Send`, `Close`, the worker `writeLoop`, `sendMail` and
`formatBody`.

* Go values of type `interface{}` are the inductive `Value`; a Go
  `map[string]interface{}` is an association list with unique keys (`Record`).
* A call that may panic returns an `Outcome` (or a `NewResult`).
* The Go standard library (`text/template`, `encoding/json`) is a parameter
  `Lib`; the network behind `smtp.SendMail` is a parameter `Net`.  `goLib` is an
  executable model of the fragment of the library that the examples use.
* The unbuffered channel `request` is the list of records offered by blocked
  `Send` calls together with a closed flag; the scheduler is a list of `Op`s.
* Effects (log records, transport calls) are appended to a trace.
-/

namespace Smtp

/-! ## Values, events, records -/

/-- Go values of dynamic type that an event field may hold: a string, an
integer, a boolean, or a channel value (`chan` stands for the kinds that
neither `encoding/json` nor `text/template` can print). -/
inductive Value where
  | str (s : String)
  | int (i : Int)
  | bool (b : Bool)
  | chan (id : Nat)
  deriving DecidableEq, Repr

/-- The pairs `(key, value)` that `event.Event.Range` passes to its callback, in
the order of the calls.  Keys and values are of type `interface{}`. -/
abbrev Event := List (Value × Value)

/-- A Go `map[string]interface{}`: an association list in which
`mapSet` keeps the keys distinct. -/
abbrev Record := List (String × Value)

/-- The assignment `mp[k] = v`. -/
def mapSet : Record → String → Value → Record
  | [], k, v => [(k, v)]
  | (k0, v0) :: rest, k, v =>
      if k0 = k then (k, v) :: rest else (k0, v0) :: mapSet rest k v

/-- The lookup `mp[k]` with its presence flag. -/
def mapGet : Record → String → Option Value
  | [], _ => none
  | (k0, v0) :: rest, k => if k0 = k then some v0 else mapGet rest k

/-! ## Effects -/

/-- Log levels used by the channel. -/
inductive Level where
  | info
  | error
  deriving DecidableEq, Repr

/-- The value built by `smtp.PlainAuth(identity, username, password, host)`. -/
structure PlainAuth where
  identity : String
  username : String
  password : String
  host : String
  deriving DecidableEq, Repr

/-- The arguments of one call `smtp.SendMail(addr, auth, from, to, msg)`. -/
structure TransportCall where
  addr : String
  auth : PlainAuth
  sender : String
  recipients : Option (List String)
  msg : String
  deriving DecidableEq, Repr

/-- What the channel does to the outside world: a log record (its format string;
the arguments are not recorded) or a call of `smtp.SendMail`. -/
inductive Effect where
  | log (level : Level) (format : String)
  | transport (call : TransportCall)
  deriving DecidableEq, Repr

/-- The transport calls of a trace, in order. -/
def calls : List Effect → List TransportCall
  | [] => []
  | Effect.transport c :: rest => c :: calls rest
  | Effect.log _ _ :: rest => calls rest

/-! ## The environment: standard library and network -/

/-- The parts of the Go standard library the channel calls; `T` is the type of
compiled templates. -/
structure Lib (T : Type) where
  /-- The call `template.New("").Parse(src)`. -/
  parse : String → Except String T
  /-- The call `tmpl.Execute(&buf, evt)`: the buffer contents, or the error. -/
  execute : T → Record → Except String String
  /-- The call `json.Marshal(evt)`. -/
  marshal : Record → Except String String

/-- The result of `smtp.SendMail`, given everything that happened before and the
call: `none` is a nil error. -/
abbrev Net := List Effect → TransportCall → Option String

/-- A network on which every transport call succeeds. -/
def okNet : Net := fun _ _ => none

/-- A network on which every transport call fails (unreachable host). -/
def downNet : Net := fun _ _ => some "dial tcp: connection refused"

/-! ## Configuration and channel -/

/-- The struct `SmtpConfig`.  A Go slice is `none` when nil. -/
structure SmtpConfig (T : Type) where
  Server : String
  Username : String
  Password : String
  Subject : String
  From : String
  To : Option (List String)
  BodyTemplate : String
  tmpl : Option T

/-- A Go channel of records without buffer: the records offered by the senders
that are blocked on it, oldest first, and whether it has been closed. -/
structure Chan where
  pending : List Record
  closed : Bool
  deriving DecidableEq, Repr

/-- The struct `SmtpBackend`: the embedded configuration and the channel
`request`. -/
structure SmtpBackend (T : Type) extends SmtpConfig T where
  request : Chan

/-- What a call of `New` does: it returns a channel and an error (either may be
nil), having started the worker or not, or it panics. -/
inductive NewResult (T : Type) where
  | ret (ch : Option (SmtpBackend T)) (err : Option String) (worker : Bool)
  | panic (err : String)

/-- A value or a panic. -/
inductive Outcome (α : Type) where
  | ok (a : α)
  | panic (msg : String)
  deriving DecidableEq, Repr

/-- The literal `SmtpConfig{}`: every field has its zero value. -/
def emptyConfig (T : Type) : SmtpConfig T :=
  { Server := "", Username := "", Password := "", Subject := "", From := "",
    To := none, BodyTemplate := "", tmpl := none }

/-- An option of `New`: a function that sets fields of the configuration of the
channel it is given. -/
abbrev ChannelOption (T : Type) := SmtpConfig T → SmtpConfig T

/-- The loop `for _, optionFn := range options { optionFn(&c) }`; the error an
option returns is ignored. -/
def applyOptions {T : Type} (options : List (ChannelOption T)) (c : SmtpConfig T) :
    SmtpConfig T :=
  options.foldl (fun c optionFn => optionFn c) c

/-- The test `c.To == nil || len(c.To) == 0 || c.To[0] == ""`. -/
def toUnset : Option (List String) → Bool
  | none => true
  | some [] => true
  | some (first :: _) => first == ""

/-- The constructor `New`.  The channel `request` is made without buffer; the
worker is started by `go c.writeLoop()` right before the successful return. -/
def New {T : Type} (L : Lib T) (options : List (ChannelOption T)) : NewResult T :=
  let c := applyOptions options (emptyConfig T)
  let request : Chan := { pending := [], closed := false }
  if c.Server = "" then
    .ret none (some "Smtp channel: mail server not set, ex: mail.google.com") false
  else if c.Username = "" then
    .ret none (some "Smtp channel: username not set, ex: abc@example.com") false
  else if c.Password = "" then
    .ret none (some "Smtp channel: password not set, ex: password") false
  else if c.Subject = "" then
    .ret none (some "Smtp channel: email subject not set, ex: Honeytrap alerts") false
  else if c.From = "" then
    .ret none (some "Smtp channel: From address not set, ex: alert@example.com") false
  else if toUnset c.To then
    .ret none (some "Smtp channel: At least first recipient must be set, ex: [\"admin1@example.com\",\"admin2@example.com\"]") false
  else if c.BodyTemplate ≠ "" then
    -- template.Must panics with the error of Parse
    match L.parse c.BodyTemplate with
    | .ok t => .ret (some { toSmtpConfig := { c with tmpl := some t }, request := request }) none true
    | .error e => .panic e
  else
    .ret (some { toSmtpConfig := { c with tmpl := none }, request := request }) none true

/-! ## Formatting and sending -/

/-- The method `formatBody`: the body and the log records written, or the panic
of a call of `Execute` on a nil template. -/
def formatBody {T : Type} (L : Lib T) (f : SmtpBackend T) (evt : Record) :
    Outcome (String × List Effect) :=
  if f.BodyTemplate = "" then
    match L.marshal evt with
    | .error _ => .ok ("", [Effect.log Level.error "Failed to marshal PushMessage to JSON : %+q"])
    | .ok b => .ok (b, [])
  else
    match f.tmpl with
    | none => .panic "invalid memory address or nil pointer dereference"
    | some t =>
      match L.execute t evt with
      | .error _ => .ok ("", [Effect.log Level.error "Fail to create email body:%+q"])
      | .ok s => .ok (s, [])

/-- The arguments with which `sendMail` calls `smtp.SendMail` for the body
`evt`. -/
def mailCall {T : Type} (f : SmtpBackend T) (evt : String) : TransportCall :=
  let host := f.Server
  let addr := "587"
  let recipients := f.To
  let toStr := String.intercalate "," (f.To.getD [])
  let sender := f.From
  let msgStr := "To: " ++ toStr ++ "\r\nFrom: " ++ sender ++ "\r\nSubject: " ++ f.Subject
    ++ "\r\n\r\n" ++ evt ++ "\r\n"
  let auth : PlainAuth :=
    { identity := "", username := f.Username, password := f.Password, host := host }
  { addr := host ++ ":" ++ addr, auth := auth, sender := sender, recipients := recipients,
    msg := msgStr }

/-- The method `sendMail`: the trace after it has run on the trace `tr`. -/
def sendMail {T : Type} (net : Net) (f : SmtpBackend T) (evt : String)
    (tr : List Effect) : List Effect :=
  let call := mailCall f evt
  let tr1 := tr ++ [Effect.log Level.info "Calling SendMail with: host=%s, from=%s, to=%s, msg=%s\n"]
  match net tr1 call with
  | some _ => tr1 ++ [Effect.transport call] ++ [Effect.log Level.error "Fail to send email:%+q"]
  | none => tr1 ++ [Effect.transport call]

/-! ## The running system -/

/-- The worker goroutine: inside its loop, returned, or dead by a panic. -/
inductive Status where
  | running
  | stopped
  | crashed
  deriving DecidableEq, Repr

/-- The channel together with its worker, the trace of effects, and the number
of panics in the goroutines of the producers. -/
structure Sys (T : Type) where
  f : SmtpBackend T
  worker : Status
  trace : List Effect
  panics : Nat

/-- The state right after a successful `New`: `go c.writeLoop()` has run. -/
def start {T : Type} (f : SmtpBackend T) : Sys T :=
  { f := f, worker := Status.running, trace := [], panics := 0 }

/-- What the `select` of `writeLoop` yields: a receive `req, ok := <-f.request`,
or the timer `<-time.After(time.Second)`. -/
inductive Sel where
  | recv (req : Record) (ok : Bool)
  | timeout
  deriving DecidableEq, Repr

/-- One iteration of the loop of `writeLoop`, given what `select` yielded. -/
def writeLoopIter {T : Type} (L : Lib T) (net : Net) (sel : Sel) (s : Sys T) : Sys T :=
  match sel with
  | .recv req ok =>
    if !ok then
      { s with worker := Status.stopped }
    else
      match formatBody L s.f req with
      | .panic _ => { s with worker := Status.crashed }
      | .ok (msg, logs) =>
        if msg ≠ "" then
          { s with trace := sendMail net s.f msg (s.trace ++ logs) }
        else
          { s with trace := s.trace ++ logs ++ [Effect.log Level.info "Empty email\n"] }
  | .timeout => s

/-- The loop `writeLoop` run on the successive results of its `select`: it
iterates until it returns (or dies). -/
def writeLoop {T : Type} (L : Lib T) (net : Net) : List Sel → Sys T → Sys T
  | [], s => s
  | sel :: rest, s =>
    match s.worker with
    | Status.running => writeLoop L net rest (writeLoopIter L net sel s)
    | _ => s

/-- The receive `<-c` of the worker: the oldest offered record; on a closed
channel the zero value with `ok = false`; `none` when the receive blocks. -/
def chanRecv (c : Chan) : Option (Sel × Chan) :=
  match c.pending with
  | req :: rest => some (Sel.recv req true, { c with pending := rest })
  | [] => if c.closed then some (Sel.recv [] false, c) else none

/-- The map that `Send` builds by `message.Range`: string keys only. -/
def sendRecord (message : Event) : Record :=
  message.foldl
    (fun mp kv =>
      match kv.1 with
      | Value.str keyName => mapSet mp keyName kv.2
      | _ => mp)
    []

/-- The method `Send`: it offers the record on `request`; on a closed channel
the send panics. -/
def Send {T : Type} (message : Event) (s : Sys T) : Sys T :=
  let mp := sendRecord message
  if s.f.request.closed then
    { s with panics := s.panics + 1 }
  else
    { s with f := { s.f with request := { s.f.request with pending := s.f.request.pending ++ [mp] } } }

/-- The method `Close`: `close(f.request)`.  Closing twice panics; the senders
blocked on the channel panic and their records are never received. -/
def Close {T : Type} (s : Sys T) : Sys T :=
  if s.f.request.closed then
    { s with panics := s.panics + 1 }
  else
    { s with f := { s.f with request := { pending := [], closed := true } },
             panics := s.panics + s.f.request.pending.length }

/-- The moves of the system. -/
inductive Op where
  /-- A producer calls `Send`. -/
  | send (message : Event)
  /-- A producer calls `Close`. -/
  | close
  /-- The worker is scheduled and takes what its receive case offers. -/
  | work
  /-- The timer case of the worker fires. -/
  | tick
  deriving DecidableEq, Repr

/-- One move. -/
def step {T : Type} (L : Lib T) (net : Net) (op : Op) (s : Sys T) : Sys T :=
  match op with
  | .send message => Send message s
  | .close => Close s
  | .work =>
    match s.worker with
    | Status.running =>
      match chanRecv s.f.request with
      | some (sel, c) => writeLoopIter L net sel { s with f := { s.f with request := c } }
      | none => s
    | _ => s
  | .tick =>
    match s.worker with
    | Status.running => writeLoopIter L net Sel.timeout s
    | _ => s

/-- A schedule of moves, from left to right. -/
def run {T : Type} (L : Lib T) (net : Net) : List Op → Sys T → Sys T
  | [], s => s
  | op :: ops, s => run L net ops (step L net op s)

/-! ## An executable model of the library fragment used by the examples

`encoding/json` on maps whose values are strings, integers, booleans or
channels, and `text/template` on templates made of literal text and field
actions such as `{{.name}}`. -/

/-- The digit of `n < 16` in the table `0123456789abcdef`. -/
def hexDigit (n : Nat) : Char :=
  "0123456789abcdef".toList.getD n '0'

/-- The escape of one character inside a JSON string, as `json.Marshal` writes
it (HTML escaping is on by default; backspace and form feed get their short
escapes, as current releases of `encoding/json` write them). -/
def jsonEscapeChar (c : Char) : List Char :=
  if c = '\x22' then ['\x5c', '\x22']
  else if c = '\x5c' then ['\x5c', '\x5c']
  else if c = '\n' then ['\x5c', 'n']
  else if c = '\r' then ['\x5c', 'r']
  else if c = '\t' then ['\x5c', 't']
  else if c.toNat = 8 then ['\x5c', 'b']
  else if c.toNat = 12 then ['\x5c', 'f']
  else if c.toNat < 32 ∨ c = '<' ∨ c = '>' ∨ c = '&' then
    ['\x5c', 'u', '0', '0', hexDigit (c.toNat / 16), hexDigit (c.toNat % 16)]
  else if c.toNat = 8232 then ['\x5c', 'u', '2', '0', '2', '8']
  else if c.toNat = 8233 then ['\x5c', 'u', '2', '0', '2', '9']
  else [c]

/-- A JSON string literal. -/
def jsonString (s : String) : String :=
  "\"" ++ String.mk (s.toList.flatMap jsonEscapeChar) ++ "\""

/-- The JSON encoding of one value; a channel is an unsupported type. -/
def jsonValue : Value → Except String String
  | Value.str s => .ok (jsonString s)
  | Value.int i => .ok (toString i)
  | Value.bool b => .ok (if b then "true" else "false")
  | Value.chan _ => .error "json: unsupported type: chan int"

/-- The order of Go strings (bytewise, which on UTF-8 is the order of the code
points). -/
def ltChars : List Char → List Char → Bool
  | _, [] => false
  | [], _ :: _ => true
  | c :: cs, d :: ds => c.toNat < d.toNat || (c.toNat == d.toNat && ltChars cs ds)

/-- Insertion of a pair into a list sorted by key. -/
def insertByKey (p : String × Value) : Record → Record
  | [] => [p]
  | q :: rest => if ltChars p.1.toList q.1.toList then p :: q :: rest else q :: insertByKey p rest

/-- The pairs of a map sorted by key: the order in which `json.Marshal` writes
them. -/
def sortByKey (m : Record) : Record :=
  m.foldr insertByKey []

/-- The members `"key":value` of a JSON object. -/
def jsonFields : Record → Except String (List String)
  | [] => .ok []
  | (k, v) :: rest =>
    match jsonValue v with
    | .error e => .error e
    | .ok s =>
      match jsonFields rest with
      | .error e => .error e
      | .ok fs => .ok ((jsonString k ++ ":" ++ s) :: fs)

/-- The call `json.Marshal(evt)` for `evt` a pointer to a map that is not nil. -/
def goMarshal (evt : Record) : Except String String :=
  match jsonFields (sortByKey evt) with
  | .error e => .error e
  | .ok fs => .ok ("\x7b" ++ String.intercalate "," fs ++ "\x7d")

/-- A node of a parsed template: literal text, or the field action `.name`. -/
inductive Node where
  | text (s : String)
  | field (name : String)
  deriving DecidableEq, Repr

/-- The pieces the lexer cuts a template source into. -/
inductive Tok where
  | text (cs : List Char)
  | action (cs : List Char)
  deriving DecidableEq, Repr

/-- The lexer: text up to the left delimiter, then an action up to the right
delimiter; the source may not end inside an action. -/
def lexTemplate (inAction : Bool) (acc : List Char) : List Char → Except String (List Tok)
  | [] => if inAction then .error "unclosed action" else .ok [Tok.text acc]
  | [c] => if inAction then .error "unclosed action" else .ok [Tok.text (acc ++ [c])]
  | c :: d :: rest =>
    if inAction = false ∧ c = '\x7b' ∧ d = '\x7b' then
      match lexTemplate true [] rest with
      | .error e => .error e
      | .ok toks => .ok (Tok.text acc :: toks)
    else if inAction = true ∧ c = '\x7d' ∧ d = '\x7d' then
      match lexTemplate false [] rest with
      | .error e => .error e
      | .ok toks => .ok (Tok.action acc :: toks)
    else lexTemplate inAction (acc ++ [c]) (d :: rest)

/-- The characters of a field name. -/
def isNameChar (c : Char) : Bool :=
  c.isAlphanum || c == '_'

/-- The node of one token.  The only actions of the fragment are field
references, blanks around them allowed; every other action is rejected. -/
def parseTok : Tok → Except String Node
  | Tok.text cs => .ok (Node.text (String.mk cs))
  | Tok.action cs =>
    match ((cs.dropWhile (· == ' ')).reverse.dropWhile (· == ' ')).reverse with
    | '.' :: name =>
      if name ≠ [] ∧ name.all isNameChar = true ∧ (name.head?.map Char.isDigit) ≠ some true then
        .ok (Node.field (String.mk name))
      else .error "action outside the modelled fragment"
    | _ => .error "action outside the modelled fragment"

/-- The nodes of a list of tokens. -/
def parseToks : List Tok → Except String (List Node)
  | [] => .ok []
  | t :: rest =>
    match parseTok t with
    | .error e => .error e
    | .ok n =>
      match parseToks rest with
      | .error e => .error e
      | .ok ns => .ok (n :: ns)

/-- The call `template.New("").Parse(src)`. -/
def goParse (src : String) : Except String (List Node) :=
  match lexTemplate false [] src.toList with
  | .error e => .error e
  | .ok toks => parseToks toks

/-- What a field action prints: the value of the key, or `<no value>` for a key
the map does not have; a channel cannot be printed. -/
def printField (evt : Record) (name : String) : Except String String :=
  match mapGet evt name with
  | none => .ok "<no value>"
  | some (Value.str s) => .ok s
  | some (Value.int i) => .ok (toString i)
  | some (Value.bool b) => .ok (if b then "true" else "false")
  | some (Value.chan _) => .error "can't print value of type chan int"

/-- The call `tmpl.Execute(&buf, evt)`: the text written, or the first error. -/
def goExecute : List Node → Record → Except String String
  | [], _ => .ok ""
  | Node.text s :: rest, evt =>
    match goExecute rest evt with
    | .error e => .error e
    | .ok out => .ok (s ++ out)
  | Node.field name :: rest, evt =>
    match printField evt name with
    | .error e => .error e
    | .ok s =>
      match goExecute rest evt with
      | .error e => .error e
      | .ok out => .ok (s ++ out)

/-- The library fragment as a `Lib`. -/
def goLib : Lib (List Node) :=
  { parse := goParse, execute := goExecute, marshal := goMarshal }

/-! ## Notions used in the statements -/

/-- A required field is unset: `Server`, `Username`, `Password`, `Subject` or
`From` is the empty string, or `To` is nil, has length 0, or has an empty first
entry. -/
def RequiredUnset {T : Type} (c : SmtpConfig T) : Prop :=
  c.Server = "" ∨ c.Username = "" ∨ c.Password = "" ∨ c.Subject = "" ∨ c.From = "" ∨
    c.To = none ∨ (c.To.getD []).length = 0 ∨ (c.To.getD []).head? = some ""

instance {T : Type} (c : SmtpConfig T) : Decidable (RequiredUnset c) := by
  unfold RequiredUnset; infer_instance

/-- The compiled template is there whenever `BodyTemplate` is not empty. -/
def WellFormed {T : Type} (c : SmtpConfig T) : Prop :=
  c.BodyTemplate ≠ "" → c.tmpl.isSome = true

/-- The delivery attempt that a record is due: the transport call for its body
when `formatBody` returns a body that is not empty, none otherwise. -/
def attempt {T : Type} (L : Lib T) (f : SmtpBackend T) (req : Record) : Option TransportCall :=
  match formatBody L f req with
  | .ok (msg, _) => if msg ≠ "" then some (mailCall f msg) else none
  | .panic _ => none

/-- The records that the calls of `Send` in a schedule offer, in order. -/
def offered : List Op → List Record
  | [] => []
  | Op.send message :: ops => sendRecord message :: offered ops
  | _ :: ops => offered ops

/-- The records that the worker accepts from the results of its `select`: those
received before the first receive on the closed channel. -/
def accepted : List Sel → List Record
  | [] => []
  | Sel.recv req true :: sels => req :: accepted sels
  | Sel.recv _ false :: _ => []
  | Sel.timeout :: sels => accepted sels

/-- The pair of an event that `Send` keeps: the one with a string key. -/
def stringKeyed (kv : Value × Value) : Option (String × Value) :=
  match kv.1 with
  | Value.str keyName => some (keyName, kv.2)
  | _ => none

/-- The option that sets the fields of the example configuration. -/
def exampleConfig : ChannelOption (List Node) := fun c =>
  { c with Server := "mail.example.com", Username := "u", Password := "p",
           Subject := "Alert", From := "a@example.com", To := some ["b@example.com"] }

/-- The option that sets `BodyTemplate`. -/
def withBodyTemplate {T : Type} (src : String) : ChannelOption T := fun c =>
  { c with BodyTemplate := src }

/-- The channel `New` returns for the example configuration and the body
template `src` compiled to `t`. -/
def exampleBackend (src : String) (t : Option (List Node)) : SmtpBackend (List Node) :=
  { Server := "mail.example.com", Username := "u", Password := "p",
    Subject := "Alert", From := "a@example.com", To := some ["b@example.com"],
    BodyTemplate := src, tmpl := t, request := { pending := [], closed := false } }

/-- The body template `{{.a}}-{{.b}}`. -/
def dashTemplate : String := "\x7b\x7b.a\x7d\x7d-\x7b\x7b.b\x7d\x7d"

/-- The parse tree of `dashTemplate`. -/
def dashTree : List Node :=
  [Node.text "", Node.field "a", Node.text "-", Node.field "b", Node.text ""]

/-- The event with the fields `a = "1"` and `b = "2"`. -/
def abEvent : Event := [(Value.str "a", Value.str "1"), (Value.str "b", Value.str "2")]

/-- The event with the field `msg = "intrusion"`. -/
def intrusionEvent : Event := [(Value.str "msg", Value.str "intrusion")]

/-- An event whose field `a` is the empty string. -/
def blankEvent : Event := [(Value.str "a", Value.str "")]

/-- An event with a field that holds a channel. -/
def chanEvent : Event := [(Value.str "c", Value.chan 0)]

/-- An event with a key that is not a string. -/
def mixedEvent : Event :=
  [(Value.str "a", Value.str "1"), (Value.int 7, Value.str "x"), (Value.str "b", Value.int 2)]

/-- The body template `{{.a}}`. -/
def fieldTemplate : String := "\x7b\x7b.a\x7d\x7d"

/-- The parse tree of `fieldTemplate`. -/
def fieldTree : List Node := [Node.text "", Node.field "a", Node.text ""]

/-- Whether the worker is told by one of the results of its `select` that the
channel is closed. -/
def sawClosed : List Sel → Bool
  | [] => false
  | Sel.recv _ false :: _ => true
  | _ :: sels => sawClosed sels

/-- The only records on a closed channel are none: the senders that were blocked
have panicked. -/
def Drained {T : Type} (s : Sys T) : Prop :=
  s.f.request.closed = true → s.f.request.pending = []

/-! ## The constructor -/

theorem toUnset_iff (rcpts : Option (List String)) :
    toUnset rcpts = true ↔
      (rcpts = none ∨ (rcpts.getD []).length = 0 ∨ (rcpts.getD []).head? = some "") := by
  cases rcpts with
  | none => simp [toUnset]
  | some l =>
    cases l with
    | nil => simp [toUnset]
    | cons first rest => simp [toUnset]

theorem requiredUnset_iff {T : Type} (c : SmtpConfig T) :
    RequiredUnset c ↔
      (c.Server = "" ∨ c.Username = "" ∨ c.Password = "" ∨ c.Subject = "" ∨ c.From = "" ∨
        toUnset c.To = true) := by
  unfold RequiredUnset
  rw [toUnset_iff]

/-- When a required field is unset, `New` returns an error and no channel, and
starts no worker. -/
theorem New_of_unset {T : Type} (L : Lib T) (options : List (ChannelOption T))
    (h : RequiredUnset (applyOptions options (emptyConfig T))) :
    ∃ e, New L options = .ret none (some e) false := by
  rw [requiredUnset_iff] at h
  unfold New
  simp only []
  by_cases h1 : (applyOptions options (emptyConfig T)).Server = ""
  · exact ⟨_, if_pos h1⟩
  rw [if_neg h1]
  by_cases h2 : (applyOptions options (emptyConfig T)).Username = ""
  · exact ⟨_, if_pos h2⟩
  rw [if_neg h2]
  by_cases h3 : (applyOptions options (emptyConfig T)).Password = ""
  · exact ⟨_, if_pos h3⟩
  rw [if_neg h3]
  by_cases h4 : (applyOptions options (emptyConfig T)).Subject = ""
  · exact ⟨_, if_pos h4⟩
  rw [if_neg h4]
  by_cases h5 : (applyOptions options (emptyConfig T)).From = ""
  · exact ⟨_, if_pos h5⟩
  rw [if_neg h5]
  have h6 : toUnset (applyOptions options (emptyConfig T)).To = true := by
    rcases h with h | h | h | h | h | h
    · exact absurd h h1
    · exact absurd h h2
    · exact absurd h h3
    · exact absurd h h4
    · exact absurd h h5
    · exact h
  exact ⟨_, if_pos h6⟩

/-- When every required field is set, `New` goes on to the template: it returns
the channel with the compiled template (or with none for an empty
`BodyTemplate`), or panics with the error of the parser. -/
theorem New_of_set {T : Type} (L : Lib T) (options : List (ChannelOption T))
    (h : ¬ RequiredUnset (applyOptions options (emptyConfig T))) :
    New L options =
      if (applyOptions options (emptyConfig T)).BodyTemplate ≠ "" then
        match L.parse (applyOptions options (emptyConfig T)).BodyTemplate with
        | .ok t =>
          .ret (some { toSmtpConfig := { applyOptions options (emptyConfig T) with tmpl := some t },
                       request := { pending := [], closed := false } }) none true
        | .error e => .panic e
      else
        .ret (some { toSmtpConfig := { applyOptions options (emptyConfig T) with tmpl := none },
                     request := { pending := [], closed := false } }) none true := by
  rw [requiredUnset_iff] at h
  simp only [not_or] at h
  obtain ⟨h1, h2, h3, h4, h5, h6⟩ := h
  unfold New
  simp only []
  rw [if_neg h1, if_neg h2, if_neg h3, if_neg h4, if_neg h5, if_neg h6]

/-- A channel that `New` returns has every required field set and carries the
configuration the options built, with the template compiled from its
`BodyTemplate` (none when that is empty); the worker has been started. -/
theorem New_ret_some {T : Type} (L : Lib T) (options : List (ChannelOption T))
    (f : SmtpBackend T) (err : Option String) (w : Bool)
    (h : New L options = .ret (some f) err w) :
    ¬ RequiredUnset (applyOptions options (emptyConfig T)) ∧ err = none ∧ w = true ∧
      f.request = { pending := [], closed := false } ∧
      ((f.BodyTemplate = "" ∧
          f.toSmtpConfig = { applyOptions options (emptyConfig T) with tmpl := none }) ∨
        (f.BodyTemplate ≠ "" ∧ ∃ t, L.parse f.BodyTemplate = .ok t ∧
          f.toSmtpConfig = { applyOptions options (emptyConfig T) with tmpl := some t })) := by
  by_cases hu : RequiredUnset (applyOptions options (emptyConfig T))
  · obtain ⟨e, he⟩ := New_of_unset L options hu
    rw [he] at h
    cases h
  · rw [New_of_set L options hu] at h
    by_cases hb : (applyOptions options (emptyConfig T)).BodyTemplate = ""
    · rw [if_neg (not_not.mpr hb)] at h
      cases h
      exact ⟨hu, rfl, rfl, rfl, Or.inl ⟨hb, rfl⟩⟩
    · rw [if_pos hb] at h
      cases hp : L.parse (applyOptions options (emptyConfig T)).BodyTemplate with
      | error e => rw [hp] at h; cases h
      | ok t =>
        rw [hp] at h
        cases h
        exact ⟨hu, rfl, rfl, rfl, Or.inr ⟨hb, t, hp, rfl⟩⟩

/-- A channel that `New` returns is well formed. -/
theorem New_wellFormed {T : Type} (L : Lib T) (options : List (ChannelOption T))
    (f : SmtpBackend T) (err : Option String) (w : Bool)
    (h : New L options = .ret (some f) err w) : WellFormed f.toSmtpConfig := by
  obtain ⟨_, _, _, _, h1 | h1⟩ := New_ret_some L options f err w h
  · intro hb
    exact absurd h1.1 hb
  · obtain ⟨_, t, _, hc⟩ := h1
    intro _
    rw [hc]
    rfl

/-- With every required field set and a `BodyTemplate` that is not empty and
does not parse, `New` returns nothing: it panics with the error of the parser. -/
theorem New_panics_of_parse_error {T : Type} (L : Lib T) (options : List (ChannelOption T))
    (e : String) (hset : ¬ RequiredUnset (applyOptions options (emptyConfig T)))
    (hb : (applyOptions options (emptyConfig T)).BodyTemplate ≠ "")
    (hp : L.parse (applyOptions options (emptyConfig T)).BodyTemplate = .error e) :
    New L options = .panic e := by
  rw [New_of_set L options hset, if_pos hb, hp]

/-! ## Formatting -/

theorem formatBody_congr {T : Type} (L : Lib T) (f g : SmtpBackend T) (evt : Record)
    (h : f.toSmtpConfig = g.toSmtpConfig) : formatBody L f evt = formatBody L g evt := by
  unfold formatBody
  rw [show f.BodyTemplate = g.BodyTemplate from congrArg SmtpConfig.BodyTemplate h,
    show f.tmpl = g.tmpl from congrArg SmtpConfig.tmpl h]

theorem mailCall_congr {T : Type} (f g : SmtpBackend T) (evt : String)
    (h : f.toSmtpConfig = g.toSmtpConfig) : mailCall f evt = mailCall g evt := by
  unfold mailCall
  rw [show f.Server = g.Server from congrArg SmtpConfig.Server h,
    show f.To = g.To from congrArg SmtpConfig.To h,
    show f.From = g.From from congrArg SmtpConfig.From h,
    show f.Subject = g.Subject from congrArg SmtpConfig.Subject h,
    show f.Username = g.Username from congrArg SmtpConfig.Username h,
    show f.Password = g.Password from congrArg SmtpConfig.Password h]

theorem attempt_congr {T : Type} (L : Lib T) (f g : SmtpBackend T) (req : Record)
    (h : f.toSmtpConfig = g.toSmtpConfig) : attempt L f req = attempt L g req := by
  unfold attempt
  rw [formatBody_congr L f g req h]
  cases formatBody L g req with
  | panic m => rfl
  | ok r =>
    obtain ⟨msg, logs⟩ := r
    simp only [mailCall_congr f g msg h]

/-- On a well-formed channel `formatBody` returns: it does not panic. -/
theorem formatBody_ok_of_wellFormed {T : Type} (L : Lib T) (f : SmtpBackend T)
    (evt : Record) (hwf : WellFormed f.toSmtpConfig) :
    ∃ msg logs, formatBody L f evt = .ok (msg, logs) := by
  unfold formatBody
  by_cases hb : f.BodyTemplate = ""
  · rw [if_pos hb]
    cases L.marshal evt with
    | error e => exact ⟨_, _, rfl⟩
    | ok b => exact ⟨_, _, rfl⟩
  · rw [if_neg hb]
    have ht := hwf hb
    cases htm : f.tmpl with
    | none => rw [htm] at ht; cases ht
    | some t =>
      simp only []
      cases L.execute t evt with
      | error e => exact ⟨_, _, rfl⟩
      | ok b => exact ⟨_, _, rfl⟩

/-- The effects of `formatBody` are log records only. -/
theorem formatBody_logs {T : Type} (L : Lib T) (f : SmtpBackend T) (evt : Record)
    (msg : String) (logs : List Effect) (h : formatBody L f evt = .ok (msg, logs)) :
    calls logs = [] := by
  unfold formatBody at h
  by_cases hb : f.BodyTemplate = ""
  · rw [if_pos hb] at h
    cases hm : L.marshal evt with
    | error e => rw [hm] at h; cases h; rfl
    | ok b => rw [hm] at h; cases h; rfl
  · rw [if_neg hb] at h
    cases htm : f.tmpl with
    | none => rw [htm] at h; cases h
    | some t =>
      rw [htm] at h
      simp only [] at h
      cases hx : L.execute t evt with
      | error e => rw [hx] at h; cases h; rfl
      | ok b => rw [hx] at h; cases h; rfl

/-! ## Traces -/

theorem calls_append (a b : List Effect) : calls (a ++ b) = calls a ++ calls b := by
  induction a with
  | nil => rfl
  | cons e rest ih =>
    cases e with
    | log l t => simpa [calls] using ih
    | transport c => simpa [calls] using ih

/-- The method `sendMail` adds exactly one transport call to the trace, whatever
the network answers. -/
theorem calls_sendMail {T : Type} (net : Net) (f : SmtpBackend T) (evt : String)
    (tr : List Effect) : calls (sendMail net f evt tr) = calls tr ++ [mailCall f evt] := by
  unfold sendMail
  simp only []
  cases net (tr ++ [Effect.log Level.info "Calling SendMail with: host=%s, from=%s, to=%s, msg=%s\n"])
      (mailCall f evt) with
  | none => simp [calls_append, calls]
  | some e => simp [calls_append, calls]

/-! ## The worker -/

/-- An iteration of the loop leaves the channel and the producers alone. -/
theorem writeLoopIter_f {T : Type} (L : Lib T) (net : Net) (sel : Sel) (s : Sys T) :
    (writeLoopIter L net sel s).f = s.f ∧ (writeLoopIter L net sel s).panics = s.panics := by
  unfold writeLoopIter
  cases sel with
  | timeout => exact ⟨rfl, rfl⟩
  | recv req ok =>
    cases ok with
    | false => exact ⟨rfl, rfl⟩
    | true =>
      simp only [Bool.not_true, Bool.false_eq_true, if_false]
      cases formatBody L s.f req with
      | panic m => exact ⟨rfl, rfl⟩
      | ok r =>
        obtain ⟨msg, logs⟩ := r
        simp only []
        split <;> exact ⟨rfl, rfl⟩

/-- An iteration on a received record, on a well-formed channel: the worker
stays in its loop and the trace gains the attempt due to the record, and
nothing else than log records. -/
theorem writeLoopIter_recv {T : Type} (L : Lib T) (net : Net) (req : Record) (s : Sys T)
    (hwf : WellFormed s.f.toSmtpConfig) :
    (writeLoopIter L net (Sel.recv req true) s).worker = s.worker ∧
      calls (writeLoopIter L net (Sel.recv req true) s).trace =
        calls s.trace ++ (attempt L s.f req).toList := by
  obtain ⟨msg, logs, hfb⟩ := formatBody_ok_of_wellFormed L s.f req hwf
  have hl := formatBody_logs L s.f req msg logs hfb
  unfold writeLoopIter attempt
  simp only [Bool.not_true, Bool.false_eq_true, if_false, hfb]
  by_cases hm : msg = ""
  · simp [hm, calls_append, calls, hl]
  · simp [hm, calls_sendMail, calls_append, hl]

/-- The worker on a well-formed channel never dies. -/
theorem writeLoopIter_not_crashed {T : Type} (L : Lib T) (net : Net) (sel : Sel) (s : Sys T)
    (hwf : WellFormed s.f.toSmtpConfig) (hw : s.worker ≠ Status.crashed) :
    (writeLoopIter L net sel s).worker ≠ Status.crashed := by
  cases sel with
  | timeout => exact hw
  | recv req ok =>
    cases ok with
    | false => simp [writeLoopIter]
    | true => rw [(writeLoopIter_recv L net req s hwf).1]; exact hw

/-! ## The system -/

/-- No move changes the configuration of the channel. -/
theorem step_config {T : Type} (L : Lib T) (net : Net) (op : Op) (s : Sys T) :
    (step L net op s).f.toSmtpConfig = s.f.toSmtpConfig := by
  cases op with
  | send m =>
    simp only [step, Send]
    split <;> rfl
  | close =>
    simp only [step, Close]
    split <;> rfl
  | work =>
    simp only [step]
    cases hw : s.worker with
    | running =>
      simp only []
      cases hr : chanRecv s.f.request with
      | none => rfl
      | some p =>
        obtain ⟨sel, c⟩ := p
        simp only []
        rw [(writeLoopIter_f L net sel _).1]
    | stopped => rfl
    | crashed => rfl
  | tick =>
    simp only [step]
    cases hw : s.worker with
    | running => simp only []; rw [(writeLoopIter_f L net Sel.timeout _).1]
    | stopped => rfl
    | crashed => rfl

theorem run_config {T : Type} (L : Lib T) (net : Net) (ops : List Op) (s : Sys T) :
    (run L net ops s).f.toSmtpConfig = s.f.toSmtpConfig := by
  induction ops generalizing s with
  | nil => rfl
  | cons op ops ih => rw [run, ih, step_config]

/-- On a well-formed channel no move kills the worker. -/
theorem step_not_crashed {T : Type} (L : Lib T) (net : Net) (op : Op) (s : Sys T)
    (hwf : WellFormed s.f.toSmtpConfig) (hw : s.worker ≠ Status.crashed) :
    (step L net op s).worker ≠ Status.crashed := by
  cases op with
  | send m =>
    simp only [step, Send]
    split <;> exact hw
  | close =>
    simp only [step, Close]
    split <;> exact hw
  | work =>
    simp only [step]
    cases hs : s.worker with
    | running =>
      simp only []
      cases hr : chanRecv s.f.request with
      | none => simp [hs]
      | some p =>
        obtain ⟨sel, c⟩ := p
        simp only []
        apply writeLoopIter_not_crashed
        · exact hwf
        · simp [hs]
    | stopped => simp [hs]
    | crashed => exact absurd hs hw
  | tick =>
    simp only [step]
    cases hs : s.worker with
    | running => simp [writeLoopIter, hs]
    | stopped => simp [hs]
    | crashed => exact absurd hs hw

theorem run_not_crashed {T : Type} (L : Lib T) (net : Net) (ops : List Op) (s : Sys T)
    (hwf : WellFormed s.f.toSmtpConfig) (hw : s.worker ≠ Status.crashed) :
    (run L net ops s).worker ≠ Status.crashed := by
  induction ops generalizing s with
  | nil => exact hw
  | cons op ops ih =>
    rw [run]
    apply ih
    · rw [step_config]; exact hwf
    · exact step_not_crashed L net op s hwf hw

/-! ## Claims about the constructor -/

/-- C1: for a configuration, built by the options from the empty one, whose body
template is empty or parses, `New` returns an error and no channel exactly when
`Server`, `Username`, `Password`, `Subject` or `From` is empty or `To` is nil,
has length 0 or has an empty first entry; it returns a channel and a nil error
(the worker started) exactly when none of them is. -/
theorem New_error_iff_required_unset {T : Type} (L : Lib T)
    (options : List (ChannelOption T))
    (htmpl : (applyOptions options (emptyConfig T)).BodyTemplate = "" ∨
      ∃ t, L.parse (applyOptions options (emptyConfig T)).BodyTemplate = .ok t) :
    ((∃ e, New L options = .ret none (some e) false) ↔
        RequiredUnset (applyOptions options (emptyConfig T))) ∧
      ((∃ f, New L options = .ret (some f) none true) ↔
        ¬ RequiredUnset (applyOptions options (emptyConfig T))) := by
  by_cases hu : RequiredUnset (applyOptions options (emptyConfig T))
  · obtain ⟨e, he⟩ := New_of_unset L options hu
    refine ⟨⟨fun _ => hu, fun _ => ⟨e, he⟩⟩, ⟨?_, fun hn => absurd hu hn⟩⟩
    rintro ⟨f, hf⟩
    rw [he] at hf
    cases hf
  · have hnew := New_of_set L options hu
    have hsome : ∃ f, New L options = .ret (some f) none true := by
      rcases htmpl with hb | ⟨t, ht⟩
      · rw [if_neg (not_not.mpr hb)] at hnew
        exact ⟨_, hnew⟩
      · by_cases hb : (applyOptions options (emptyConfig T)).BodyTemplate = ""
        · rw [if_neg (not_not.mpr hb)] at hnew
          exact ⟨_, hnew⟩
        · rw [if_pos hb, ht] at hnew
          exact ⟨_, hnew⟩
    refine ⟨⟨?_, fun h => absurd h hu⟩, ⟨fun _ => hu, fun _ => hsome⟩⟩
    rintro ⟨e, he⟩
    obtain ⟨f, hf⟩ := hsome
    rw [hf] at he
    cases he

/-- C1, at the example configuration with a body template that parses. -/
theorem New_error_iff_required_unset_witness :
    ((applyOptions [exampleConfig, withBodyTemplate dashTemplate]
          (emptyConfig (List Node))).BodyTemplate = "" ∨
        ∃ t, goLib.parse
          (applyOptions [exampleConfig, withBodyTemplate dashTemplate]
            (emptyConfig (List Node))).BodyTemplate = .ok t) ∧
      (((∃ e, New goLib [exampleConfig, withBodyTemplate dashTemplate]
            = .ret none (some e) false) ↔
          RequiredUnset
            (applyOptions [exampleConfig, withBodyTemplate dashTemplate]
              (emptyConfig (List Node)))) ∧
        ((∃ f, New goLib [exampleConfig, withBodyTemplate dashTemplate]
            = .ret (some f) none true) ↔
          ¬ RequiredUnset
            (applyOptions [exampleConfig, withBodyTemplate dashTemplate]
              (emptyConfig (List Node))))) :=
  ⟨Or.inr ⟨_, rfl⟩,
    New_error_iff_required_unset goLib
      [exampleConfig, withBodyTemplate dashTemplate] (Or.inr ⟨_, rfl⟩)⟩

/-- C2: at the example configuration, every required field set, with the body
template `{{` (an action that is never closed, which does not parse), `New` does
not return an error to its caller: it panics with the error of the parser. -/
theorem New_unparsable_template_panics :
    ¬ RequiredUnset (applyOptions [exampleConfig, withBodyTemplate "\x7b\x7b"]
        (emptyConfig (List Node))) ∧
      goLib.parse "\x7b\x7b" = .error "unclosed action" ∧
      New goLib [exampleConfig, withBodyTemplate "\x7b\x7b"] = .panic "unclosed action" ∧
      ¬ ∃ ch err w, New goLib [exampleConfig, withBodyTemplate "\x7b\x7b"] = .ret ch err w := by
  refine ⟨by decide, rfl, rfl, ?_⟩
  rintro ⟨ch, err, w, h⟩
  have h2 : New goLib [exampleConfig, withBodyTemplate "\x7b\x7b"] = .panic "unclosed action" := rfl
  rw [h2] at h
  cases h

/-- C10: on a channel returned by `New` the compiled template is present exactly
when `BodyTemplate` is not empty; so `formatBody` returns on every record (it
does not run a nil template), and in no schedule does the worker die. -/
theorem New_template_present_iff {T : Type} (L : Lib T) (options : List (ChannelOption T))
    (f : SmtpBackend T) (err : Option String) (w : Bool)
    (h : New L options = .ret (some f) err w) :
    (f.tmpl.isSome = true ↔ f.BodyTemplate ≠ "") ∧
      (∀ evt, ∃ msg logs, formatBody L f evt = .ok (msg, logs)) ∧
      (∀ net ops evt, ∃ msg logs,
        formatBody L (run L net ops (start f)).f evt = .ok (msg, logs)) ∧
      (∀ net ops, (run L net ops (start f)).worker ≠ Status.crashed) := by
  have hwf := New_wellFormed L options f err w h
  refine ⟨?_, fun evt => formatBody_ok_of_wellFormed L f evt hwf, ?_, ?_⟩
  · obtain ⟨_, _, _, _, h1 | h1⟩ := New_ret_some L options f err w h
    · obtain ⟨hb, hc⟩ := h1
      have ht : f.tmpl = none := by rw [hc]
      simp [ht, hb]
    · obtain ⟨hb, t, _, hc⟩ := h1
      have ht : f.tmpl = some t := by rw [hc]
      simp [ht, hb]
  · intro net ops evt
    apply formatBody_ok_of_wellFormed
    rw [run_config]
    exact hwf
  · intro net ops
    apply run_not_crashed
    · exact hwf
    · simp [start]

/-- C10, at the example configuration with the body template `{{.a}}-{{.b}}`. -/
theorem New_template_present_iff_witness :
    New goLib [exampleConfig, withBodyTemplate dashTemplate] =
        .ret (some (exampleBackend dashTemplate
          (some dashTree)))
          none true ∧
      (((exampleBackend dashTemplate
          (some dashTree)).tmpl.isSome
            = true ↔
          (exampleBackend dashTemplate
            (some dashTree)).BodyTemplate
            ≠ "") ∧
        (∀ evt, ∃ msg logs, formatBody goLib (exampleBackend dashTemplate
          (some dashTree)) evt
            = .ok (msg, logs)) ∧
        (∀ net ops evt, ∃ msg logs,
          formatBody goLib (run goLib net ops (start (exampleBackend dashTemplate
          (some dashTree)))).f evt
            = .ok (msg, logs)) ∧
        (∀ net ops, (run goLib net ops (start (exampleBackend dashTemplate
          (some dashTree)))).worker
            ≠ Status.crashed)) :=
  ⟨rfl, New_template_present_iff goLib
    [exampleConfig, withBodyTemplate dashTemplate] _ none true rfl⟩

/-! ## Claims about formatting and sending -/

/-- A call of `formatBody` that returns was made on a well-formed channel. -/
theorem wellFormed_of_formatBody_ok {T : Type} (L : Lib T) (f : SmtpBackend T) (evt : Record)
    (r : String × List Effect) (h : formatBody L f evt = .ok r) :
    WellFormed f.toSmtpConfig := by
  intro hb
  unfold formatBody at h
  rw [if_neg hb] at h
  cases htm : f.tmpl with
  | none => rw [htm] at h; cases h
  | some t => rfl

/-- C3: with an empty `BodyTemplate`, `formatBody` returns the JSON encoding of
the record, and the empty string when the encoding fails; with a `BodyTemplate`
that is not empty it returns what the compiled template writes for the record,
and the empty string when the execution fails.  The record of the event
`{"a": "1", "b": "2"}` gives its JSON encoding without a template and `1-2` with
the template `{{.a}}-{{.b}}`. -/
theorem formatBody_json_or_template {T : Type} (L : Lib T) (f : SmtpBackend T) (evt : Record) :
    (f.BodyTemplate = "" → ∀ b, L.marshal evt = .ok b → formatBody L f evt = .ok (b, [])) ∧
      (f.BodyTemplate = "" → ∀ e, L.marshal evt = .error e →
        ∃ logs, formatBody L f evt = .ok ("", logs)) ∧
      (f.BodyTemplate ≠ "" → ∀ t, f.tmpl = some t → ∀ out, L.execute t evt = .ok out →
        formatBody L f evt = .ok (out, [])) ∧
      (f.BodyTemplate ≠ "" → ∀ t, f.tmpl = some t → ∀ e, L.execute t evt = .error e →
        ∃ logs, formatBody L f evt = .ok ("", logs)) ∧
      New goLib [exampleConfig] = .ret (some (exampleBackend "" none)) none true ∧
      formatBody goLib (exampleBackend "" none) (sendRecord abEvent) =
        .ok ("\x7b\"a\":\"1\",\"b\":\"2\"\x7d", []) ∧
      New goLib [exampleConfig, withBodyTemplate dashTemplate] =
        .ret (some (exampleBackend dashTemplate (some dashTree))) none true ∧
      formatBody goLib (exampleBackend dashTemplate (some dashTree)) (sendRecord abEvent) =
        .ok ("1-2", []) := by
  refine ⟨?_, ?_, ?_, ?_, rfl, rfl, rfl, rfl⟩
  · intro hb b hm
    unfold formatBody
    rw [if_pos hb, hm]
  · intro hb e hm
    unfold formatBody
    rw [if_pos hb, hm]
    exact ⟨_, rfl⟩
  · intro hb t ht out hx
    unfold formatBody
    rw [if_neg hb, ht]
    simp only [hx]
  · intro hb t ht e hx
    unfold formatBody
    rw [if_neg hb, ht]
    simp only [hx]
    exact ⟨_, rfl⟩

/-- C3, at the example channels: the JSON body, the body of the template, and
the empty body for a record that cannot be encoded or printed. -/
theorem formatBody_json_or_template_witness :
    formatBody goLib (exampleBackend "" none) (sendRecord abEvent) =
        .ok ("\x7b\"a\":\"1\",\"b\":\"2\"\x7d", []) ∧
      (∃ logs, formatBody goLib (exampleBackend "" none) (sendRecord chanEvent) =
        .ok ("", logs)) ∧
      formatBody goLib (exampleBackend dashTemplate (some dashTree)) (sendRecord abEvent) =
        .ok ("1-2", []) ∧
      (∃ logs, formatBody goLib (exampleBackend "\x7b\x7b.c\x7d\x7d" (some [Node.text "", Node.field "c", Node.text ""]))
        (sendRecord chanEvent) = .ok ("", logs)) :=
  ⟨(formatBody_json_or_template goLib (exampleBackend "" none) (sendRecord abEvent)).1
      rfl _ rfl,
    (formatBody_json_or_template goLib (exampleBackend "" none) (sendRecord chanEvent)).2.1
      rfl "json: unsupported type: chan int" rfl,
    (formatBody_json_or_template goLib (exampleBackend dashTemplate (some dashTree))
      (sendRecord abEvent)).2.2.1 (by decide) dashTree rfl _ rfl,
    (formatBody_json_or_template goLib
      (exampleBackend "\x7b\x7b.c\x7d\x7d" (some [Node.text "", Node.field "c", Node.text ""]))
      (sendRecord chanEvent)).2.2.2.1 (by decide) _ rfl "can't print value of type chan int" rfl⟩

/-- C7: `sendMail` makes exactly one transport call: to `Server` followed by
`:587`, with plain authentication by `Username` and `Password`, from `From`, to
the whole list `To`, with the message made of the three header lines, an empty
line, the body and a line end.  In the example, sending the event
`{"msg":"intrusion"}` gives one call, to `b@example.com`, with subject `Alert`
and the JSON encoding of the event as body. -/
theorem sendMail_one_transport_call {T : Type} (net : Net) (f : SmtpBackend T) (evt : String)
    (tr : List Effect) :
    calls (sendMail net f evt tr) = calls tr ++
        [{ addr := f.Server ++ ":587",
           auth := { identity := "", username := f.Username, password := f.Password,
                     host := f.Server },
           sender := f.From,
           recipients := f.To,
           msg := "To: " ++ String.intercalate "," (f.To.getD []) ++ "\r\n" ++
             "From: " ++ f.From ++ "\r\n" ++
             "Subject: " ++ f.Subject ++ "\r\n" ++ "\r\n" ++ evt ++ "\r\n" }] ∧
      New goLib [exampleConfig] = .ret (some (exampleBackend "" none)) none true ∧
      calls (run goLib net [Op.send intrusionEvent, Op.work] (start (exampleBackend "" none))).trace =
        [{ addr := "mail.example.com:587",
           auth := { identity := "", username := "u", password := "p",
                     host := "mail.example.com" },
           sender := "a@example.com",
           recipients := some ["b@example.com"],
           msg := "To: b@example.com\r\nFrom: a@example.com\r\nSubject: Alert\r\n\r\n" ++
             "\x7b\"msg\":\"intrusion\"\x7d" ++ "\r\n" }] := by
  refine ⟨?_, rfl, ?_⟩
  · rw [calls_sendMail]
    have e1 : ∀ a b : String, a ++ "\r\n" ++ "From: " ++ b = a ++ "\r\nFrom: " ++ b := by
      intro a b
      rw [String.append_assoc a "\r\n" "From: "]
      rfl
    have e2 : ∀ a b : String, a ++ "\r\n" ++ "Subject: " ++ b = a ++ "\r\nSubject: " ++ b := by
      intro a b
      rw [String.append_assoc a "\r\n" "Subject: "]
      rfl
    have e3 : ∀ a b : String, a ++ "\r\n" ++ "\r\n" ++ b = a ++ "\r\n\r\n" ++ b := by
      intro a b
      rw [String.append_assoc a "\r\n" "\r\n"]
      rfl
    have e4 : f.Server ++ ":" ++ "587" = f.Server ++ ":587" := by
      rw [String.append_assoc f.Server ":" "587"]
      rfl
    simp only [mailCall, e1, e2, e3, e4]
  · have hrun : run goLib net [Op.send intrusionEvent, Op.work] (start (exampleBackend "" none)) =
        writeLoopIter goLib net (Sel.recv (sendRecord intrusionEvent) true)
          (start (exampleBackend "" none)) := rfl
    rw [hrun, (writeLoopIter_recv goLib net _ _ (by intro h; exact absurd rfl h)).2]
    rfl

/-- A scheduled worker with an offered record takes the oldest one and runs one
iteration of its loop on it. -/
theorem step_work_recv {T : Type} (L : Lib T) (net : Net) (s : Sys T) (req : Record)
    (rest : List Record) (hw : s.worker = Status.running)
    (hp : s.f.request.pending = req :: rest) :
    step L net Op.work s =
      writeLoopIter L net (Sel.recv req true)
        { s with f := { s.f with request := { s.f.request with pending := rest } } } := by
  simp only [step, hw, chanRecv, hp]

/-- C5: when `formatBody` returns the empty string for the record the worker
takes from the channel, the worker writes log records only, makes no transport
call for it, stays in its loop with the record removed from the channel, and
its next iteration handles the next record as usual. -/
theorem empty_body_no_delivery {T : Type} (L : Lib T) (net : Net) (s : Sys T) (req : Record)
    (rest : List Record) (logs : List Effect) (hw : s.worker = Status.running)
    (hp : s.f.request.pending = req :: rest)
    (hfb : formatBody L s.f req = .ok ("", logs)) :
    (step L net Op.work s).trace = s.trace ++ logs ++ [Effect.log Level.info "Empty email\n"] ∧
      calls (step L net Op.work s).trace = calls s.trace ∧
      (step L net Op.work s).worker = Status.running ∧
      (step L net Op.work s).f.request.pending = rest ∧
      (∀ next rest2, rest = next :: rest2 →
        calls (step L net Op.work (step L net Op.work s)).trace =
          calls s.trace ++ (attempt L s.f next).toList) := by
  have hwf := wellFormed_of_formatBody_ok L s.f req _ hfb
  have hl := formatBody_logs L s.f req _ logs hfb
  have hstep := step_work_recv L net s req rest hw hp
  have hfb2 : formatBody L { s.f with request := { s.f.request with pending := rest } } req =
      .ok ("", logs) := by
    rw [← hfb]
    exact formatBody_congr L _ _ req rfl
  have htrace : (step L net Op.work s).trace =
      s.trace ++ logs ++ [Effect.log Level.info "Empty email\n"] := by
    rw [hstep]
    unfold writeLoopIter
    simp [hfb2]
  have hcalls : calls (step L net Op.work s).trace = calls s.trace := by
    rw [htrace]
    simp [calls_append, hl, calls]
  have hworker : (step L net Op.work s).worker = Status.running := by
    rw [hstep]
    unfold writeLoopIter
    simp [hfb2, hw]
  have hpend : (step L net Op.work s).f.request.pending = rest := by
    rw [hstep, (writeLoopIter_f L net _ _).1]
  refine ⟨htrace, hcalls, hworker, hpend, ?_⟩
  intro next rest2 hr
  have hcfg : (step L net Op.work s).f.toSmtpConfig = s.f.toSmtpConfig := step_config L net _ s
  rw [step_work_recv L net (step L net Op.work s) next rest2 hworker (by rw [hpend, hr])]
  rw [(writeLoopIter_recv L net next _ (by rw [hcfg]; exact hwf)).2]
  simp only []
  rw [hcalls]
  congr 2
  exact attempt_congr L _ _ next hcfg

/-- C5, at the example channel without template, with a record that cannot be
encoded offered before the record of another event. -/
theorem empty_body_no_delivery_witness :
    (step goLib okNet Op.work
        (run goLib okNet [Op.send chanEvent, Op.send abEvent] (start (exampleBackend "" none)))).trace =
        [] ++ [Effect.log Level.error "Failed to marshal PushMessage to JSON : %+q"] ++
          [Effect.log Level.info "Empty email\n"] ∧
      calls (step goLib okNet Op.work
        (run goLib okNet [Op.send chanEvent, Op.send abEvent] (start (exampleBackend "" none)))).trace =
        calls [] ∧
      (step goLib okNet Op.work
        (run goLib okNet [Op.send chanEvent, Op.send abEvent] (start (exampleBackend "" none)))).worker =
        Status.running ∧
      (step goLib okNet Op.work
        (run goLib okNet [Op.send chanEvent, Op.send abEvent]
          (start (exampleBackend "" none)))).f.request.pending = [sendRecord abEvent] ∧
      (∀ next rest2, [sendRecord abEvent] = next :: rest2 →
        calls (step goLib okNet Op.work (step goLib okNet Op.work
          (run goLib okNet [Op.send chanEvent, Op.send abEvent]
            (start (exampleBackend "" none))))).trace =
          calls [] ++ (attempt goLib (exampleBackend "" none) next).toList) :=
  empty_body_no_delivery goLib okNet
    (run goLib okNet [Op.send chanEvent, Op.send abEvent] (start (exampleBackend "" none)))
    (sendRecord chanEvent) [sendRecord abEvent]
    [Effect.log Level.error "Failed to marshal PushMessage to JSON : %+q"] rfl rfl rfl

/-! ## Claims about `Send` -/

theorem mapSet_fresh (m : Record) (k : String) (v : Value) (h : k ∉ m.map Prod.fst) :
    mapSet m k v = m ++ [(k, v)] := by
  induction m with
  | nil => rfl
  | cons p rest ih =>
    obtain ⟨k0, v0⟩ := p
    simp only [List.map_cons, List.mem_cons, not_or] at h
    simp only [mapSet, if_neg (Ne.symm h.1), ih h.2, List.cons_append]

theorem mapGet_eq_some_iff (m : Record) (hn : (m.map Prod.fst).Nodup) (k : String) (v : Value) :
    mapGet m k = some v ↔ (k, v) ∈ m := by
  induction m with
  | nil => simp [mapGet]
  | cons p rest ih =>
    obtain ⟨k0, v0⟩ := p
    simp only [List.map_cons, List.nodup_cons] at hn
    by_cases hk : k0 = k
    · subst hk
      simp only [mapGet, if_true, Option.some.injEq, List.mem_cons, Prod.mk.injEq, true_and]
      constructor
      · intro h; exact Or.inl h.symm
      · rintro (h | h)
        · exact h.symm
        · exact absurd (List.mem_map_of_mem Prod.fst h) hn.1
    · simp only [mapGet, if_neg hk, List.mem_cons, Prod.mk.injEq]
      rw [ih hn.2]
      constructor
      · intro h; exact Or.inr h
      · rintro (h | h)
        · exact absurd h.1.symm hk
        · exact h

theorem mem_filterMap_stringKeyed (message : Event) (k : String) (v : Value) :
    (k, v) ∈ message.filterMap stringKeyed ↔ (Value.str k, v) ∈ message := by
  simp only [List.mem_filterMap]
  constructor
  · rintro ⟨⟨a, b⟩, hmem, hs⟩
    cases a with
    | str s =>
      simp only [stringKeyed, Option.some.injEq, Prod.mk.injEq] at hs
      rw [← hs.1, ← hs.2]
      exact hmem
    | int i => simp [stringKeyed] at hs
    | bool b => simp [stringKeyed] at hs
    | chan c => simp [stringKeyed] at hs
  · intro h
    exact ⟨_, h, rfl⟩

theorem keys_filterMap_stringKeyed (message : Event) (k : String) :
    k ∈ (message.filterMap stringKeyed).map Prod.fst ↔ Value.str k ∈ message.map Prod.fst := by
  simp only [List.mem_map, Prod.exists, exists_and_right, exists_eq_right]
  constructor
  · rintro ⟨v, hv⟩
    exact ⟨v, (mem_filterMap_stringKeyed message k v).1 hv⟩
  · rintro ⟨v, hv⟩
    exact ⟨v, (mem_filterMap_stringKeyed message k v).2 hv⟩

/-- The loop of `Send` over an event with distinct keys appends the pairs with a
string key to the map, in order. -/
theorem sendRecord_fold (message : Event) (acc : Record)
    (hk : (message.map Prod.fst).Nodup)
    (hd : ∀ k, k ∈ acc.map Prod.fst → Value.str k ∉ message.map Prod.fst) :
    message.foldl
        (fun mp kv =>
          match kv.1 with
          | Value.str keyName => mapSet mp keyName kv.2
          | _ => mp)
        acc = acc ++ message.filterMap stringKeyed := by
  induction message generalizing acc with
  | nil => simp
  | cons p rest ih =>
    obtain ⟨a, b⟩ := p
    simp only [List.map_cons, List.nodup_cons] at hk
    cases a with
    | str s =>
      have hfresh : s ∉ acc.map Prod.fst := by
        intro hmem
        exact hd s hmem (by simp)
      simp only [List.foldl_cons, List.filterMap_cons, stringKeyed]
      rw [mapSet_fresh acc s b hfresh, ih (acc ++ [(s, b)]) hk.2]
      · simp
      · intro k hmem hin
        simp only [List.map_append, List.map_cons, List.map_nil, List.mem_append,
          List.mem_singleton] at hmem
        rcases hmem with hmem | hmem
        · exact hd k hmem (by simp [hin])
        · subst hmem
          exact hk.1 hin
    | int i =>
      simp only [List.foldl_cons, List.filterMap_cons, stringKeyed]
      exact ih acc hk.2 (fun k hmem hin => hd k hmem (by simp [hin]))
    | bool i =>
      simp only [List.foldl_cons, List.filterMap_cons, stringKeyed]
      exact ih acc hk.2 (fun k hmem hin => hd k hmem (by simp [hin]))
    | chan i =>
      simp only [List.foldl_cons, List.filterMap_cons, stringKeyed]
      exact ih acc hk.2 (fun k hmem hin => hd k hmem (by simp [hin]))

theorem nodup_keys_filterMap_stringKeyed (message : Event)
    (hk : (message.map Prod.fst).Nodup) :
    ((message.filterMap stringKeyed).map Prod.fst).Nodup := by
  induction message with
  | nil => simp
  | cons p rest ih =>
    obtain ⟨a, b⟩ := p
    simp only [List.map_cons, List.nodup_cons] at hk
    cases a with
    | str s =>
      simp only [List.filterMap_cons, stringKeyed, List.map_cons, List.nodup_cons]
      refine ⟨?_, ih hk.2⟩
      intro hmem
      exact hk.1 ((keys_filterMap_stringKeyed rest s).1 hmem)
    | int i => simpa [List.filterMap_cons, stringKeyed] using ih hk.2
    | bool i => simpa [List.filterMap_cons, stringKeyed] using ih hk.2
    | chan i => simpa [List.filterMap_cons, stringKeyed] using ih hk.2

/-- C8: for an event (its keys are distinct, as those of a map are), the record
that `Send` builds is the list of the pairs of the event that have a string key,
values unchanged; a pair with another key is left out; and a call of `Send` on
an open channel offers exactly this one record. -/
theorem Send_record_string_keys (message : Event) (hk : (message.map Prod.fst).Nodup) :
    sendRecord message = message.filterMap stringKeyed ∧
      (∀ k v, (k, v) ∈ sendRecord message ↔ (Value.str k, v) ∈ message) ∧
      (∀ k v, mapGet (sendRecord message) k = some v ↔ (Value.str k, v) ∈ message) ∧
      (∀ (T : Type) (s : Sys T), s.f.request.closed = false →
        (Send message s).f.request.pending = s.f.request.pending ++ [sendRecord message] ∧
        (Send message s).f.request.closed = false ∧
        (Send message s).f.toSmtpConfig = s.f.toSmtpConfig ∧
        (Send message s).trace = s.trace ∧
        (Send message s).worker = s.worker ∧
        (Send message s).panics = s.panics) := by
  have heq : sendRecord message = message.filterMap stringKeyed := by
    unfold sendRecord
    rw [sendRecord_fold message [] hk (by simp)]
    simp
  refine ⟨heq, ?_, ?_, ?_⟩
  · intro k v
    rw [heq]
    exact mem_filterMap_stringKeyed message k v
  · intro k v
    rw [heq, mapGet_eq_some_iff _ (nodup_keys_filterMap_stringKeyed message hk)]
    exact mem_filterMap_stringKeyed message k v
  · intro T s hc
    simp [Send, hc]

/-- C8, at an event with a key that is not a string. -/
theorem Send_record_string_keys_witness :
    (mixedEvent.map Prod.fst).Nodup ∧
      sendRecord mixedEvent = [("a", Value.str "1"), ("b", Value.int 2)] ∧
      (sendRecord mixedEvent = mixedEvent.filterMap stringKeyed ∧
        (∀ k v, (k, v) ∈ sendRecord mixedEvent ↔ (Value.str k, v) ∈ mixedEvent) ∧
        (∀ k v, mapGet (sendRecord mixedEvent) k = some v ↔ (Value.str k, v) ∈ mixedEvent) ∧
        (∀ (T : Type) (s : Sys T), s.f.request.closed = false →
          (Send mixedEvent s).f.request.pending = s.f.request.pending ++ [sendRecord mixedEvent] ∧
          (Send mixedEvent s).f.request.closed = false ∧
          (Send mixedEvent s).f.toSmtpConfig = s.f.toSmtpConfig ∧
          (Send mixedEvent s).trace = s.trace ∧
          (Send mixedEvent s).worker = s.worker ∧
          (Send mixedEvent s).panics = s.panics)) :=
  ⟨by decide, rfl, Send_record_string_keys mixedEvent (by decide)⟩

/-! ## Claims about the worker and the schedule -/

theorem run_append {T : Type} (L : Lib T) (net : Net) (a b : List Op) (s : Sys T) :
    run L net (a ++ b) s = run L net b (run L net a s) := by
  induction a generalizing s with
  | nil => rfl
  | cons op ops ih => exact ih (step L net op s)

/-- Before `Close`: the worker of a well-formed open channel stays in its loop,
no producer panics, and the records offered so far are those the worker has
handled, each with the attempt due to it, followed by those still offered. -/
theorem run_no_close {T : Type} (L : Lib T) (net : Net) (ops : List Op) (s : Sys T)
    (hops : Op.close ∉ ops) (hwf : WellFormed s.f.toSmtpConfig)
    (hw : s.worker = Status.running) (hc : s.f.request.closed = false) :
    (run L net ops s).worker = Status.running ∧
      (run L net ops s).f.request.closed = false ∧
      (run L net ops s).panics = s.panics ∧
      ∃ done, s.f.request.pending ++ offered ops = done ++ (run L net ops s).f.request.pending ∧
        calls (run L net ops s).trace = calls s.trace ++ done.filterMap (attempt L s.f) := by
  induction ops generalizing s with
  | nil => exact ⟨hw, hc, rfl, [], by simp [offered, run], by simp [run]⟩
  | cons op ops ih =>
    simp only [List.mem_cons, not_or] at hops
    have hcfg : (step L net op s).f.toSmtpConfig = s.f.toSmtpConfig := step_config L net op s
    have hwf2 : WellFormed (step L net op s).f.toSmtpConfig := by rw [hcfg]; exact hwf
    have hatt : attempt L (step L net op s).f = attempt L s.f := by
      funext r
      exact attempt_congr L _ _ r hcfg
    cases op with
    | close => exact absurd rfl hops.1
    | send m =>
      have hs : step L net (Op.send m) s =
          { s with f := { s.f with request :=
            { s.f.request with pending := s.f.request.pending ++ [sendRecord m] } } } := by
        simp [step, Send, hc]
      obtain ⟨h1, h2, h3, done, h4, h5⟩ := ih (step L net (Op.send m) s) hops.2 hwf2
        (by rw [hs]; exact hw) (by rw [hs]; exact hc)
      refine ⟨h1, h2, ?_, done, ?_, ?_⟩
      · rw [run, h3, hs]
      · rw [run, ← h4, hs]
        simp [offered]
      · rw [run, h5, hatt, hs]
    | tick =>
      have hs : step L net Op.tick s = s := by
        simp [step, hw, writeLoopIter]
      rw [run, hs]
      simpa [offered] using ih s hops.2 hwf hw hc
    | work =>
      cases hp : s.f.request.pending with
      | nil =>
        have hs : step L net Op.work s = s := by
          simp [step, hw, chanRecv, hp, hc]
        rw [run, hs]
        simpa [offered, hp] using ih s hops.2 hwf hw hc
      | cons req rest =>
        have hs := step_work_recv L net s req rest hw hp
        have hiter := writeLoopIter_recv L net req
          { s with f := { s.f with request := { s.f.request with pending := rest } } } hwf
        have hf := writeLoopIter_f L net (Sel.recv req true)
          { s with f := { s.f with request := { s.f.request with pending := rest } } }
        rw [← hs] at hiter hf
        have hwk : (step L net Op.work s).worker = Status.running := by rw [hiter.1]; exact hw
        have hpend : (step L net Op.work s).f.request.pending = rest := by rw [hf.1]
        have hcl : (step L net Op.work s).f.request.closed = false := by rw [hf.1]; exact hc
        have hpan : (step L net Op.work s).panics = s.panics := hf.2
        have hcalls : calls (step L net Op.work s).trace =
            calls s.trace ++ (attempt L s.f req).toList := by
          rw [hiter.2]
          congr 2
        obtain ⟨h1, h2, h3, done, h4, h5⟩ := ih (step L net Op.work s) hops.2 hwf2 hwk hcl
        rw [hpend] at h4
        refine ⟨h1, h2, ?_, req :: done, ?_, ?_⟩
        · rw [run, h3, hpan]
        · rw [run]
          simp only [offered, List.cons_append, List.cons.injEq, true_and]
          exact h4
        · rw [run, h5, hatt, hcalls]
          cases ha : attempt L s.f req with
          | none => simp [List.filterMap_cons, ha]
          | some c => simp [List.filterMap_cons, ha]

/-- C4 as stated fails: on the example channel with the body template `{{.a}}`,
the event whose field `a` is the empty string is sent and taken by the worker,
its body is empty, and no delivery attempt is made for it. -/
theorem one_attempt_per_event_refuted :
    New goLib [exampleConfig, withBodyTemplate fieldTemplate] =
        .ret (some (exampleBackend fieldTemplate (some fieldTree))) none true ∧
      offered [Op.send blankEvent, Op.work] = [sendRecord blankEvent] ∧
      (run goLib okNet [Op.send blankEvent, Op.work]
        (start (exampleBackend fieldTemplate (some fieldTree)))).f.request.pending = [] ∧
      formatBody goLib (exampleBackend fieldTemplate (some fieldTree)) (sendRecord blankEvent) =
        .ok ("", []) ∧
      calls (run goLib okNet [Op.send blankEvent, Op.work]
        (start (exampleBackend fieldTemplate (some fieldTree)))).trace = [] ∧
      (calls (run goLib okNet [Op.send blankEvent, Op.work]
        (start (exampleBackend fieldTemplate (some fieldTree)))).trace).length ≠
        (offered [Op.send blankEvent, Op.work]).length :=
  ⟨rfl, rfl, rfl, rfl, rfl, by decide⟩

/-- The worker drains the channel: as many moves of the worker as there are
records offered take them all, in order, and add the attempt due to each. -/
theorem run_drain {T : Type} (L : Lib T) (net : Net) (pend : List Record) (s : Sys T)
    (hp : s.f.request.pending = pend) (hwf : WellFormed s.f.toSmtpConfig)
    (hw : s.worker = Status.running) :
    (run L net (List.replicate pend.length Op.work) s).f.request.pending = [] ∧
      (run L net (List.replicate pend.length Op.work) s).worker = Status.running ∧
      calls (run L net (List.replicate pend.length Op.work) s).trace =
        calls s.trace ++ pend.filterMap (attempt L s.f) := by
  induction pend generalizing s with
  | nil => exact ⟨hp, hw, by simp [run]⟩
  | cons req rest ih =>
    have hs := step_work_recv L net s req rest hw hp
    have hiter := writeLoopIter_recv L net req
      { s with f := { s.f with request := { s.f.request with pending := rest } } } hwf
    have hf := writeLoopIter_f L net (Sel.recv req true)
      { s with f := { s.f with request := { s.f.request with pending := rest } } }
    rw [← hs] at hiter hf
    have hcfg : (step L net Op.work s).f.toSmtpConfig = s.f.toSmtpConfig :=
      step_config L net Op.work s
    have hatt : attempt L (step L net Op.work s).f = attempt L s.f := by
      funext r
      exact attempt_congr L _ _ r hcfg
    have hwk : (step L net Op.work s).worker = Status.running := by rw [hiter.1]; exact hw
    have hpend : (step L net Op.work s).f.request.pending = rest := by rw [hf.1]
    have hcalls : calls (step L net Op.work s).trace =
        calls s.trace ++ (attempt L s.f req).toList := by
      rw [hiter.2]
      congr 2
    obtain ⟨k1, k2, k3⟩ := ih (step L net Op.work s) hpend (by rw [hcfg]; exact hwf) hwk
    have hrun : run L net (List.replicate (req :: rest).length Op.work) s =
        run L net (List.replicate rest.length Op.work) (step L net Op.work s) := rfl
    rw [hrun]
    refine ⟨k1, k2, ?_⟩
    rw [k3, hatt, hcalls]
    cases ha : attempt L s.f req with
    | none => simp [List.filterMap_cons, ha]
    | some c => simp [List.filterMap_cons, ha]

/-- C4, amended: on a channel returned by `New`, in every schedule of calls of
`Send` and moves of the worker without `Close`, the worker stays in its loop,
and the records offered are, in order, the records it has handled followed by
those still offered; the transport calls made are, in the same order, one for
each handled record whose formatted body is not empty, and none for a record
whose body is empty.  No offered record is left behind: after as many further
moves of the worker as there are records still offered, the channel holds no
record and the transport calls are, in the order of the calls of `Send`, one for
each event whose formatted body is not empty. -/
theorem one_attempt_per_nonempty_body {T : Type} (L : Lib T) (net : Net)
    (options : List (ChannelOption T)) (f : SmtpBackend T) (ops : List Op)
    (hnew : New L options = .ret (some f) none true) (hops : Op.close ∉ ops) :
    (run L net ops (start f)).worker = Status.running ∧
      (∃ done, offered ops = done ++ (run L net ops (start f)).f.request.pending ∧
        calls (run L net ops (start f)).trace = done.filterMap (attempt L f)) ∧
      ((run L net ops (start f)).f.request.pending = [] →
        calls (run L net ops (start f)).trace = (offered ops).filterMap (attempt L f)) ∧
      (∀ req, ∃ msg logs, formatBody L f req = .ok (msg, logs) ∧
        attempt L f req = if msg = "" then none else some (mailCall f msg)) ∧
      (run L net
        (ops ++ List.replicate (run L net ops (start f)).f.request.pending.length Op.work)
        (start f)).f.request.pending = [] ∧
      (run L net
        (ops ++ List.replicate (run L net ops (start f)).f.request.pending.length Op.work)
        (start f)).worker = Status.running ∧
      calls (run L net
        (ops ++ List.replicate (run L net ops (start f)).f.request.pending.length Op.work)
        (start f)).trace = (offered ops).filterMap (attempt L f) := by
  have hwf := New_wellFormed L options f none true hnew
  obtain ⟨_, _, _, hreq, _⟩ := New_ret_some L options f none true hnew
  have hpend : (start f).f.request.pending = [] := by
    show f.request.pending = []
    rw [hreq]
  have hclosed : (start f).f.request.closed = false := by
    show f.request.closed = false
    rw [hreq]
  obtain ⟨h1, _, _, done, h4, h5⟩ := run_no_close L net ops (start f) hops hwf rfl hclosed
  rw [hpend] at h4
  simp only [List.nil_append] at h4
  have h5b : calls (run L net ops (start f)).trace = done.filterMap (attempt L f) := by
    rw [h5]
    simp [start, calls]
  have hcfg : (run L net ops (start f)).f.toSmtpConfig = f.toSmtpConfig :=
    run_config L net ops (start f)
  have hatt : attempt L (run L net ops (start f)).f = attempt L f := by
    funext r
    exact attempt_congr L _ _ r hcfg
  obtain ⟨d1, d2, d3⟩ := run_drain L net (run L net ops (start f)).f.request.pending
    (run L net ops (start f)) rfl (by rw [hcfg]; exact hwf) h1
  refine ⟨h1, ⟨done, h4, h5b⟩, ?_, ?_, ?_, ?_, ?_⟩
  · intro hp
    rw [hp, List.append_nil] at h4
    rw [h4, h5b]
  · intro req
    obtain ⟨msg, logs, hfb⟩ := formatBody_ok_of_wellFormed L f req hwf
    refine ⟨msg, logs, hfb, ?_⟩
    unfold attempt
    rw [hfb]
    by_cases hm : msg = ""
    · simp [hm]
    · simp [hm]
  · rw [run_append]
    exact d1
  · rw [run_append]
    exact d2
  · rw [run_append, d3, hatt, h5b, h4, List.filterMap_append]

/-- C4 amended, at the example channel without template: three events are sent
while the worker handles only the first; two further moves of the worker drain
the channel, and the calls are those for the first and the third event (the
second cannot be encoded, its body is empty). -/
theorem one_attempt_per_nonempty_body_witness :
    New goLib [exampleConfig] = .ret (some (exampleBackend "" none)) none true ∧
      Op.close ∉ [Op.send abEvent, Op.tick, Op.work, Op.send chanEvent,
        Op.send intrusionEvent] ∧
      (run goLib okNet [Op.send abEvent, Op.tick, Op.work, Op.send chanEvent,
        Op.send intrusionEvent] (start (exampleBackend "" none))).f.request.pending =
        [sendRecord chanEvent, sendRecord intrusionEvent] ∧
      (offered [Op.send abEvent, Op.tick, Op.work, Op.send chanEvent,
        Op.send intrusionEvent]).filterMap (attempt goLib (exampleBackend "" none)) =
        [mailCall (exampleBackend "" none) "\x7b\"a\":\"1\",\"b\":\"2\"\x7d",
         mailCall (exampleBackend "" none) "\x7b\"msg\":\"intrusion\"\x7d"] ∧
      (run goLib okNet
        ([Op.send abEvent, Op.tick, Op.work, Op.send chanEvent, Op.send intrusionEvent] ++
          List.replicate
            (run goLib okNet [Op.send abEvent, Op.tick, Op.work, Op.send chanEvent,
              Op.send intrusionEvent] (start (exampleBackend "" none))).f.request.pending.length
            Op.work)
        (start (exampleBackend "" none))).f.request.pending = [] ∧
      calls (run goLib okNet
        ([Op.send abEvent, Op.tick, Op.work, Op.send chanEvent, Op.send intrusionEvent] ++
          List.replicate
            (run goLib okNet [Op.send abEvent, Op.tick, Op.work, Op.send chanEvent,
              Op.send intrusionEvent] (start (exampleBackend "" none))).f.request.pending.length
            Op.work)
        (start (exampleBackend "" none))).trace =
        (offered [Op.send abEvent, Op.tick, Op.work, Op.send chanEvent,
          Op.send intrusionEvent]).filterMap (attempt goLib (exampleBackend "" none)) :=
  ⟨rfl, by decide, rfl, rfl,
    (one_attempt_per_nonempty_body goLib okNet [exampleConfig] (exampleBackend "" none)
      [Op.send abEvent, Op.tick, Op.work, Op.send chanEvent, Op.send intrusionEvent]
      rfl (by decide)).2.2.2.2.1,
    (one_attempt_per_nonempty_body goLib okNet [exampleConfig] (exampleBackend "" none)
      [Op.send abEvent, Op.tick, Op.work, Op.send chanEvent, Op.send intrusionEvent]
      rfl (by decide)).2.2.2.2.2.2⟩

/-- A worker that has left its loop does nothing more. -/
theorem writeLoop_of_not_running {T : Type} (L : Lib T) (net : Net) (sels : List Sel)
    (s : Sys T) (h : s.worker ≠ Status.running) : writeLoop L net sels s = s := by
  cases sels with
  | nil => rfl
  | cons sel rest =>
    unfold writeLoop
    cases hw : s.worker with
    | running => exact absurd hw h
    | stopped => rfl
    | crashed => rfl

/-- The loop on a well-formed channel, whatever the network answers: it leaves
its loop exactly when it is told that the channel is closed, and its transport
calls are the attempts due to the records it accepted, in order. -/
theorem writeLoop_spec {T : Type} (L : Lib T) (net : Net) (sels : List Sel) (s : Sys T)
    (hwf : WellFormed s.f.toSmtpConfig) (hw : s.worker = Status.running) :
    (writeLoop L net sels s).f = s.f ∧
      (writeLoop L net sels s).worker =
        (if sawClosed sels = true then Status.stopped else Status.running) ∧
      calls (writeLoop L net sels s).trace =
        calls s.trace ++ (accepted sels).filterMap (attempt L s.f) := by
  induction sels generalizing s with
  | nil => simp [writeLoop, sawClosed, accepted, hw]
  | cons sel rest ih =>
    have hunf : writeLoop L net (sel :: rest) s = writeLoop L net rest (writeLoopIter L net sel s) := by
      rw [writeLoop]
      simp only [hw]
    rw [hunf]
    cases sel with
    | timeout =>
      have hi : writeLoopIter L net Sel.timeout s = s := rfl
      rw [hi]
      simpa [sawClosed, accepted] using ih s hwf hw
    | recv req ok =>
      cases ok with
      | false =>
        have hi : writeLoopIter L net (Sel.recv req false) s = { s with worker := Status.stopped } := rfl
        rw [hi, writeLoop_of_not_running L net rest _ (by simp)]
        simp [sawClosed, accepted]
      | true =>
        have hf := writeLoopIter_f L net (Sel.recv req true) s
        have hi := writeLoopIter_recv L net req s hwf
        obtain ⟨h1, h2, h3⟩ := ih (writeLoopIter L net (Sel.recv req true) s)
          (by rw [hf.1]; exact hwf) (by rw [hi.1]; exact hw)
        refine ⟨by rw [h1, hf.1], by rw [h2]; simp [sawClosed], ?_⟩
        rw [h3, hi.2, hf.1]
        cases ha : attempt L s.f req with
        | none => simp [accepted, List.filterMap_cons, ha]
        | some c => simp [accepted, List.filterMap_cons, ha]

/-- One iteration under two networks: channel, worker and transport calls stay
the same. -/
theorem writeLoopIter_net {T : Type} (L : Lib T) (net1 net2 : Net) (sel : Sel) (s1 s2 : Sys T)
    (hf : s1.f = s2.f) (hw : s1.worker = s2.worker) (hp : s1.panics = s2.panics)
    (hc : calls s1.trace = calls s2.trace) :
    (writeLoopIter L net1 sel s1).f = (writeLoopIter L net2 sel s2).f ∧
      (writeLoopIter L net1 sel s1).worker = (writeLoopIter L net2 sel s2).worker ∧
      (writeLoopIter L net1 sel s1).panics = (writeLoopIter L net2 sel s2).panics ∧
      calls (writeLoopIter L net1 sel s1).trace = calls (writeLoopIter L net2 sel s2).trace := by
  obtain ⟨f1, w1, t1, p1⟩ := s1
  obtain ⟨f2, w2, t2, p2⟩ := s2
  simp only at hf hw hp hc
  subst hf hw hp
  cases sel with
  | timeout => exact ⟨rfl, rfl, rfl, hc⟩
  | recv req ok =>
    cases ok with
    | false => exact ⟨rfl, rfl, rfl, hc⟩
    | true =>
      unfold writeLoopIter
      simp only [Bool.not_true, Bool.false_eq_true, if_false]
      cases formatBody L f1 req with
      | panic m => exact ⟨rfl, rfl, rfl, hc⟩
      | ok r =>
        obtain ⟨msg, logs⟩ := r
        simp only []
        by_cases hm : msg = ""
        · rw [if_neg (not_not.mpr hm), if_neg (not_not.mpr hm)]
          exact ⟨rfl, rfl, rfl, by simp only [calls_append, hc]⟩
        · rw [if_pos hm, if_pos hm]
          exact ⟨rfl, rfl, rfl, by simp only [calls_sendMail, calls_append, hc]⟩

/-- One move under two networks: channel, worker, producers and transport calls
stay the same. -/
theorem step_net {T : Type} (L : Lib T) (net1 net2 : Net) (op : Op) (s1 s2 : Sys T)
    (hf : s1.f = s2.f) (hw : s1.worker = s2.worker) (hp : s1.panics = s2.panics)
    (hc : calls s1.trace = calls s2.trace) :
    (step L net1 op s1).f = (step L net2 op s2).f ∧
      (step L net1 op s1).worker = (step L net2 op s2).worker ∧
      (step L net1 op s1).panics = (step L net2 op s2).panics ∧
      calls (step L net1 op s1).trace = calls (step L net2 op s2).trace := by
  obtain ⟨f1, w1, t1, p1⟩ := s1
  obtain ⟨f2, w2, t2, p2⟩ := s2
  simp only at hf hw hp hc
  subst hf hw hp
  cases op with
  | send m =>
    simp only [step, Send]
    split <;> exact ⟨rfl, rfl, rfl, hc⟩
  | close =>
    simp only [step, Close]
    split <;> exact ⟨rfl, rfl, rfl, hc⟩
  | tick =>
    simp only [step]
    cases w1 with
    | running => exact writeLoopIter_net L net1 net2 Sel.timeout _ _ rfl rfl rfl hc
    | stopped => exact ⟨rfl, rfl, rfl, hc⟩
    | crashed => exact ⟨rfl, rfl, rfl, hc⟩
  | work =>
    simp only [step]
    cases w1 with
    | running =>
      simp only []
      cases chanRecv f1.request with
      | none => exact ⟨rfl, rfl, rfl, hc⟩
      | some p =>
        obtain ⟨sel, c⟩ := p
        exact writeLoopIter_net L net1 net2 sel _ _ rfl rfl rfl hc
    | stopped => exact ⟨rfl, rfl, rfl, hc⟩
    | crashed => exact ⟨rfl, rfl, rfl, hc⟩

theorem run_net {T : Type} (L : Lib T) (net1 net2 : Net) (ops : List Op) (s1 s2 : Sys T)
    (hf : s1.f = s2.f) (hw : s1.worker = s2.worker) (hp : s1.panics = s2.panics)
    (hc : calls s1.trace = calls s2.trace) :
    (run L net1 ops s1).f = (run L net2 ops s2).f ∧
      (run L net1 ops s1).worker = (run L net2 ops s2).worker ∧
      (run L net1 ops s1).panics = (run L net2 ops s2).panics ∧
      calls (run L net1 ops s1).trace = calls (run L net2 ops s2).trace := by
  induction ops generalizing s1 s2 with
  | nil => exact ⟨hf, hw, hp, hc⟩
  | cons op ops ih =>
    obtain ⟨h1, h2, h3, h4⟩ := step_net L net1 net2 op s1 s2 hf hw hp hc
    exact ih _ _ h1 h2 h3 h4

/-- C6: the worker of a well-formed channel under an arbitrary network, compared
with the worker under a network on which every transport call succeeds, on the
same results of `select`: it is in its loop or out of it alike (a failed call
does not stop it; it leaves only when told that the channel is closed), and it
makes the same transport calls, namely the attempt due to each accepted record,
once, in order (no record is sent again).  The same holds for every schedule of
the whole system. -/
theorem transport_failure_does_not_stop_worker {T : Type} (L : Lib T) (net : Net)
    (sels : List Sel) (s : Sys T) (hwf : WellFormed s.f.toSmtpConfig)
    (hw : s.worker = Status.running) :
    (writeLoop L net sels s).worker = (writeLoop L okNet sels s).worker ∧
      (writeLoop L net sels s).f = (writeLoop L okNet sels s).f ∧
      calls (writeLoop L net sels s).trace = calls (writeLoop L okNet sels s).trace ∧
      calls (writeLoop L net sels s).trace =
        calls s.trace ++ (accepted sels).filterMap (attempt L s.f) ∧
      (sawClosed sels = false → (writeLoop L net sels s).worker = Status.running) ∧
      (∀ ops, (run L net ops s).worker = (run L okNet ops s).worker ∧
        (run L net ops s).f = (run L okNet ops s).f ∧
        calls (run L net ops s).trace = calls (run L okNet ops s).trace) := by
  obtain ⟨a1, a2, a3⟩ := writeLoop_spec L net sels s hwf hw
  obtain ⟨b1, b2, b3⟩ := writeLoop_spec L okNet sels s hwf hw
  refine ⟨by rw [a2, b2], by rw [a1, b1], by rw [a3, b3], a3, ?_, ?_⟩
  · intro hs
    rw [a2, hs]
    simp
  · intro ops
    obtain ⟨h1, h2, _, h4⟩ := run_net L net okNet ops s s rfl rfl rfl rfl
    exact ⟨h2, h1, h4⟩

/-- C6, at the example channel without template on a network where every
transport call fails: both records are sent, each once. -/
theorem transport_failure_does_not_stop_worker_witness :
    (writeLoop goLib downNet
        [Sel.recv (sendRecord abEvent) true, Sel.timeout, Sel.recv (sendRecord intrusionEvent) true]
        (start (exampleBackend "" none))).trace =
        [Effect.log Level.info "Calling SendMail with: host=%s, from=%s, to=%s, msg=%s\n",
         Effect.transport (mailCall (exampleBackend "" none) "\x7b\"a\":\"1\",\"b\":\"2\"\x7d"),
         Effect.log Level.error "Fail to send email:%+q",
         Effect.log Level.info "Calling SendMail with: host=%s, from=%s, to=%s, msg=%s\n",
         Effect.transport (mailCall (exampleBackend "" none) "\x7b\"msg\":\"intrusion\"\x7d"),
         Effect.log Level.error "Fail to send email:%+q"] ∧
      (writeLoop goLib downNet
        [Sel.recv (sendRecord abEvent) true, Sel.timeout, Sel.recv (sendRecord intrusionEvent) true]
        (start (exampleBackend "" none))).worker = Status.running ∧
      calls (writeLoop goLib downNet
        [Sel.recv (sendRecord abEvent) true, Sel.timeout, Sel.recv (sendRecord intrusionEvent) true]
        (start (exampleBackend "" none))).trace =
        calls (writeLoop goLib okNet
          [Sel.recv (sendRecord abEvent) true, Sel.timeout, Sel.recv (sendRecord intrusionEvent) true]
          (start (exampleBackend "" none))).trace :=
  ⟨rfl,
    (transport_failure_does_not_stop_worker goLib downNet
      [Sel.recv (sendRecord abEvent) true, Sel.timeout, Sel.recv (sendRecord intrusionEvent) true]
      (start (exampleBackend "" none)) (fun h => absurd rfl h) rfl).2.2.2.2.1 rfl,
    (transport_failure_does_not_stop_worker goLib downNet
      [Sel.recv (sendRecord abEvent) true, Sel.timeout, Sel.recv (sendRecord intrusionEvent) true]
      (start (exampleBackend "" none)) (fun h => absurd rfl h) rfl).2.2.1⟩

theorem step_drained {T : Type} (L : Lib T) (net : Net) (op : Op) (s : Sys T)
    (h : Drained s) : Drained (step L net op s) := by
  unfold Drained at *
  cases op with
  | send m =>
    simp only [step, Send]
    cases hc : s.f.request.closed with
    | true => simpa [hc] using h hc
    | false => simp
  | close =>
    simp only [step, Close]
    cases hc : s.f.request.closed with
    | true => simpa [hc] using h hc
    | false => simp
  | tick =>
    simp only [step]
    cases s.worker with
    | running => exact h
    | stopped => exact h
    | crashed => exact h
  | work =>
    simp only [step]
    cases s.worker with
    | stopped => exact h
    | crashed => exact h
    | running =>
      simp only []
      cases hp : s.f.request.pending with
      | cons req rest =>
        intro hc
        have hc2 : s.f.request.closed = true := by
          simpa [chanRecv, hp, (writeLoopIter_f L net _ _).1] using hc
        rw [h hc2] at hp
        cases hp
      | nil =>
        cases hc : s.f.request.closed with
        | false => simp [chanRecv, hp, hc]
        | true =>
          simp only [chanRecv, hp, hc, if_true]
          intro _
          rw [(writeLoopIter_f L net _ _).1]
          exact hp

theorem run_drained {T : Type} (L : Lib T) (net : Net) (ops : List Op) (s : Sys T)
    (h : Drained s) : Drained (run L net ops s) := by
  induction ops generalizing s with
  | nil => exact h
  | cons op ops ih => exact ih _ (step_drained L net op s h)

/-- Once the worker has returned from its loop on the closed, drained channel,
no move changes the worker, the trace or the channel. -/
theorem step_stopped {T : Type} (L : Lib T) (net : Net) (op : Op) (s : Sys T)
    (hw : s.worker = Status.stopped) (hc : s.f.request.closed = true)
    (hp : s.f.request.pending = []) :
    (step L net op s).worker = Status.stopped ∧ (step L net op s).trace = s.trace ∧
      (step L net op s).f.request.closed = true ∧
      (step L net op s).f.request.pending = [] := by
  cases op with
  | send m => simp [step, Send, hc, hw, hp]
  | close => simp [step, Close, hc, hw, hp]
  | tick => simp [step, hw, hc, hp]
  | work => simp [step, hw, hc, hp]

theorem run_stopped {T : Type} (L : Lib T) (net : Net) (ops : List Op) (s : Sys T)
    (hw : s.worker = Status.stopped) (hc : s.f.request.closed = true)
    (hp : s.f.request.pending = []) :
    (run L net ops s).worker = Status.stopped ∧ (run L net ops s).trace = s.trace ∧
      (run L net ops s).f.request.closed = true ∧
      (run L net ops s).f.request.pending = [] := by
  induction ops generalizing s with
  | nil => exact ⟨hw, rfl, hc, hp⟩
  | cons op ops ih =>
    obtain ⟨h1, h2, h3, h4⟩ := step_stopped L net op s hw hc hp
    obtain ⟨k1, k2, k3, k4⟩ := ih (step L net op s) h1 h3 h4
    exact ⟨k1, by rw [run, k2, h2], k3, k4⟩

/-- After `Close` the channel is closed and holds no record; worker and trace
are as before. -/
theorem Close_spec {T : Type} (s : Sys T) (hd : Drained s) :
    (Close s).f.request.closed = true ∧ (Close s).f.request.pending = [] ∧
      (Close s).worker = s.worker ∧ (Close s).trace = s.trace ∧
      (Close s).f.toSmtpConfig = s.f.toSmtpConfig := by
  unfold Close
  cases hc : s.f.request.closed with
  | true => simp [hc, hd hc]
  | false => simp

/-- The worker's next move on a closed channel that holds no record: it returns
from its loop, without an effect. -/
theorem step_work_closed {T : Type} (L : Lib T) (net : Net) (s : Sys T)
    (hc : s.f.request.closed = true) (hp : s.f.request.pending = [])
    (hw : s.worker ≠ Status.crashed) :
    (step L net Op.work s).worker = Status.stopped ∧ (step L net Op.work s).trace = s.trace ∧
      (step L net Op.work s).f.request.closed = true ∧
      (step L net Op.work s).f.request.pending = [] := by
  cases hs : s.worker with
  | crashed => exact absurd hs hw
  | stopped => simp [step, hs, hc, hp]
  | running => simp [step, hs, chanRecv, hc, hp, writeLoopIter]

/-- C9: on a channel returned by `New`, after any schedule, once `Close` has been
called and the worker has moved again, the worker has returned from its loop
(the terminal state) and the closed channel holds no record; from then on, in
every continuation, it stays returned and the trace does not change: no record
is formatted, no log record written, no transport call made.  A tick of the
timer changes nothing in any state. -/
theorem Close_stops_worker {T : Type} (L : Lib T) (net : Net)
    (options : List (ChannelOption T)) (f : SmtpBackend T) (ops : List Op)
    (hnew : New L options = .ret (some f) none true) :
    (run L net (ops ++ [Op.close, Op.work]) (start f)).worker = Status.stopped ∧
      (run L net (ops ++ [Op.close, Op.work]) (start f)).f.request.closed = true ∧
      (run L net (ops ++ [Op.close, Op.work]) (start f)).f.request.pending = [] ∧
      (∀ more,
        (run L net (ops ++ [Op.close, Op.work] ++ more) (start f)).worker = Status.stopped ∧
        (run L net (ops ++ [Op.close, Op.work] ++ more) (start f)).trace =
          (run L net (ops ++ [Op.close, Op.work]) (start f)).trace ∧
        (run L net (ops ++ [Op.close, Op.work] ++ more) (start f)).f.request.pending = []) ∧
      (∀ s : Sys T, step L net Op.tick s = s) := by
  have hwf := New_wellFormed L options f none true hnew
  obtain ⟨_, _, _, hreq, _⟩ := New_ret_some L options f none true hnew
  have hd0 : Drained (start f) := by
    intro hc
    have : f.request.closed = true := hc
    rw [hreq] at this
    cases this
  have hd := run_drained L net ops (start f) hd0
  have hnc := run_not_crashed L net ops (start f) hwf (by simp [start])
  obtain ⟨c1, c2, c3, _, _⟩ := Close_spec (run L net ops (start f)) hd
  have hrun : run L net (ops ++ [Op.close, Op.work]) (start f) =
      step L net Op.work (Close (run L net ops (start f))) := by
    rw [run_append]
    rfl
  obtain ⟨w1, _, w3, w4⟩ := step_work_closed L net (Close (run L net ops (start f))) c1 c2
    (by rw [c3]; exact hnc)
  rw [← hrun] at w1 w3 w4
  refine ⟨w1, w3, w4, ?_, ?_⟩
  · intro more
    rw [run_append L net (ops ++ [Op.close, Op.work]) more]
    obtain ⟨k1, k2, _, k4⟩ := run_stopped L net more _ w1 w3 w4
    exact ⟨k1, k2, k4⟩
  · intro s
    simp only [step]
    cases s.worker with
    | running => rfl
    | stopped => rfl
    | crashed => rfl

/-- C9, at the example channel: an event is sent and handled, the channel is
closed, the worker returns; a further `Send`, ticks and moves of the worker add
nothing to the trace. -/
theorem Close_stops_worker_witness :
    New goLib [exampleConfig] = .ret (some (exampleBackend "" none)) none true ∧
      (run goLib okNet ([Op.send abEvent, Op.work] ++ [Op.close, Op.work])
        (start (exampleBackend "" none))).worker = Status.stopped ∧
      (run goLib okNet ([Op.send abEvent, Op.work] ++ [Op.close, Op.work])
        (start (exampleBackend "" none))).f.request.pending = [] ∧
      (run goLib okNet ([Op.send abEvent, Op.work] ++ [Op.close, Op.work] ++
          [Op.tick, Op.send intrusionEvent, Op.work, Op.tick])
        (start (exampleBackend "" none))).trace =
        (run goLib okNet ([Op.send abEvent, Op.work] ++ [Op.close, Op.work])
          (start (exampleBackend "" none))).trace :=
  ⟨rfl,
    (Close_stops_worker goLib okNet [exampleConfig] (exampleBackend "" none)
      [Op.send abEvent, Op.work] rfl).1,
    (Close_stops_worker goLib okNet [exampleConfig] (exampleBackend "" none)
      [Op.send abEvent, Op.work] rfl).2.2.1,
    ((Close_stops_worker goLib okNet [exampleConfig] (exampleBackend "" none)
      [Op.send abEvent, Op.work] rfl).2.2.2.1
      [Op.tick, Op.send intrusionEvent, Op.work, Op.tick]).2.1⟩

end Smtp
